import Mathlib

/-!
Verification development for the machine-controller repository.

The Go sources are shallowly embedded: machine/machine-set objects become
Lean structures, `*int32` fields become `Option Int`, timestamps become
`Int` seconds (the `metav1.Time` zero value is modelled as `0`),
`float64` delete-priority scores become `ℝ`, and fallible functions
return `Except String`.  Replica arithmetic is modelled over `Int`
(realistic replica counts are far from the `int32` bounds, so overflow
is not modelled).
-/

namespace MachineController

/-- Embeds `clusterv1alpha1.Machine` restricted to the fields the
machine-set delete prioritization reads
(`DeletionTimestamp`, `Annotations`, `Status.ErrorReason`,
`Status.ErrorMessage`, `CreationTimestamp`). -/
structure Machine where
  /-- `ObjectMeta.DeletionTimestamp`, a `*metav1.Time`; `some 0` models a
  non-nil pointer to the zero time. -/
  deletionTimestamp : Option Int
  /-- `ObjectMeta.Annotations`, a possibly-nil `map[string]string`. -/
  annotations : Option (List (String × String))
  /-- `ObjectMeta.CreationTimestamp` in seconds; `0` is the zero time. -/
  creationTimestamp : Int
  /-- `ObjectMeta.Labels`, a possibly-nil `map[string]string`. -/
  labels : Option (List (String × String))
  errorReason : Option String
  errorMessage : Option String
  /-- `Status.NodeRef`, a `*corev1.ObjectReference`; only `.Name` is read. -/
  nodeRefName : Option String
  /-- The `.Address` strings of `Status.Addresses`. -/
  addresses : List String
  deriving Repr, DecidableEq

/-- Go map lookup `m[k]` on a possibly-nil map: missing keys yield `""`. -/
def mapLookup (m : Option (List (String × String))) (k : String) : String :=
  match m with
  | none => ""
  | some l =>
    match l.find? (fun kv => kv.1 = k) with
    | some kv => kv.2
    | none => ""

/-- `cluster.k8s.io/delete-machine` (constant `DeleteNodeAnnotation`). -/
def DeleteNodeAnnotation : String := "cluster.k8s.io/delete-machine"

/-- `machine.DeletionTimestamp != nil && !machine.DeletionTimestamp.IsZero()`. -/
def hasDeletionTimestamp (m : Machine) : Bool :=
  match m.deletionTimestamp with
  | none => false
  | some t => t ≠ 0

/-- `machine.Annotations != nil && machine.Annotations[DeleteNodeAnnotation] != ""`. -/
def hasDeleteAnnotation (m : Machine) : Bool :=
  m.annotations.isSome && mapLookup m.annotations DeleteNodeAnnotation ≠ ""

/-- `machine.Status.ErrorReason != nil || machine.Status.ErrorMessage != nil`. -/
def hasErrorField (m : Machine) : Bool :=
  m.errorReason.isSome || m.errorMessage.isSome

/-- The Go `deletePriority` type (`float64`), modelled as `ℝ`. -/
abbrev deletePriority : Type := ℝ

/-- `mustDelete deletePriority = 100.0`. -/
def mustDelete : deletePriority := 100

/-- `betterDelete deletePriority = 50.0`. -/
def betterDelete : deletePriority := 50

/-- `couldDelete deletePriority = 20.0`. -/
def couldDelete : deletePriority := 20

/-- `mustNotDelete deletePriority = 0.0`. -/
def mustNotDelete : deletePriority := 0

/-- `secondsPerTenDays float64 = 864000`. -/
def secondsPerTenDays : ℝ := 864000

/-- `oldestDeletePriority` from the machine-set controller: maps the
creation timestamp onto the 0-100 priority range.  The Go code reads the
wall clock (`metav1.Now()`); the embedding takes `now` as a parameter. -/
noncomputable def oldestDeletePriority (now : Int) (machine : Machine) : deletePriority :=
  if hasDeletionTimestamp machine then mustDelete
  else if hasDeleteAnnotation machine then mustDelete
  else if hasErrorField machine then mustDelete
  else if machine.creationTimestamp = 0 then mustNotDelete
  else if (now - machine.creationTimestamp : Int) < 0 then mustNotDelete
  else mustDelete * (1 - Real.exp (-((now - machine.creationTimestamp : Int) : ℝ) / secondsPerTenDays))

/-- `newestDeletePriority` from the machine-set controller. -/
noncomputable def newestDeletePriority (now : Int) (machine : Machine) : deletePriority :=
  if hasDeletionTimestamp machine then mustDelete
  else if hasDeleteAnnotation machine then mustDelete
  else if hasErrorField machine then mustDelete
  else mustDelete - oldestDeletePriority now machine

/-- `randomDeletePolicy` from the machine-set controller. -/
def randomDeletePolicy (machine : Machine) : deletePriority :=
  if hasDeletionTimestamp machine then mustDelete
  else if hasDeleteAnnotation machine then betterDelete
  else if hasErrorField machine then betterDelete
  else couldDelete

/-- The Go `deletePriorityFunc` type.  The newest/oldest policies read the
wall clock when applied, so the embedding threads `now : Int` through. -/
abbrev deletePriorityFunc : Type := Int → Machine → deletePriority

/-- `randomDeletePolicy` as a `deletePriorityFunc` (it ignores the clock). -/
def randomDeletePolicyFn : deletePriorityFunc := fun _ => randomDeletePolicy

/-- `sort.Sort(sortableMachines{...})` with
`Less i j = priority(machines[j]) < priority(machines[i])`, i.e. a sort
descending by priority. -/
noncomputable def sortMachinesByPriorityDesc (f : Machine → deletePriority)
    (machines : List Machine) : List Machine :=
  List.insertionSort (fun a b => f b ≤ f a) machines

/-- `getMachinesToDeletePrioritized` from the machine-set controller:
return the `diff` machines of highest delete priority. -/
noncomputable def getMachinesToDeletePrioritized (filteredMachines : List Machine)
    (diff : Int) (f : Machine → deletePriority) : List Machine :=
  if diff ≥ filteredMachines.length then filteredMachines
  else if diff ≤ 0 then []
  else (sortMachinesByPriorityDesc f filteredMachines).take diff.toNat

/-- Embeds `clusterv1alpha1.MachineSet` restricted to the fields the
machine-deployment and machine-set controllers read. -/
structure MachineSet where
  name : String
  /-- `Spec.Replicas`, a `*int32`. -/
  specReplicas : Option Int
  statusReplicas : Int
  statusAvailableReplicas : Int
  /-- `ObjectMeta.CreationTimestamp` in seconds. -/
  creationTimestamp : Int
  /-- `ObjectMeta.DeletionTimestamp`, a `*metav1.Time`. -/
  deletionTimestamp : Option Int
  generation : Int
  observedGeneration : Int
  /-- `Spec.DeletePolicy`. -/
  deletePolicy : String
  deriving Repr, DecidableEq

/-- Modelled from the spec: the `MachineSetDeletePolicy` constants of the
SDK (`Random`, `Newest`, `Oldest`) are not under src/; the spec's policy
map names their string values. -/
def RandomMachineSetDeletePolicy : String := "Random"

/-- Modelled from the spec: see `RandomMachineSetDeletePolicy`. -/
def NewestMachineSetDeletePolicy : String := "Newest"

/-- Modelled from the spec: see `RandomMachineSetDeletePolicy`. -/
def OldestMachineSetDeletePolicy : String := "Oldest"

/-- `getDeletePriorityFunc` from the machine-set controller: maps
`Spec.DeletePolicy` to the delete priority function. -/
noncomputable def getDeletePriorityFunc (ms : MachineSet) : Except String deletePriorityFunc :=
  if ms.deletePolicy = RandomMachineSetDeletePolicy then .ok randomDeletePolicyFn
  else if ms.deletePolicy = NewestMachineSetDeletePolicy then .ok newestDeletePriority
  else if ms.deletePolicy = OldestMachineSetDeletePolicy then .ok oldestDeletePriority
  else if ms.deletePolicy = "" then .ok randomDeletePolicyFn
  else .error ("Unsupported delete policy " ++ ms.deletePolicy ++
    ". Must be one of Random, Newest, or Oldest")

/-- Embeds `clusterv1alpha1.MachineDeployment` restricted to the fields
the rolling-update and cleanup paths read.  `maxUnavailable` holds the
value of `util.MaxUnavailable(deployment)` (the int-or-percent resolution
lives in the util package, which is not under src/; the rolling-update
arithmetic only uses its resolved value). -/
structure MachineDeployment where
  name : String
  /-- `Spec.Replicas`, a `*int32`. -/
  replicas : Option Int
  /-- Modelled from the spec: resolved `maxUnavailable(D)` of §4.1.1. -/
  maxUnavailable : Int
  /-- `Spec.RevisionHistoryLimit`, a `*int32`. -/
  revisionHistoryLimit : Option Int
  deriving Repr, DecidableEq

/-- Modelled from the spec: `util.GetReplicaCountForMachineSets` is not
under src/; the spec's `Σ replicas(allMSes)` is the sum of the machine
sets' `spec.replicas` (a nil pointer contributing nothing). -/
def getReplicaCountForMachineSets (machineSets : List MachineSet) : Int :=
  (machineSets.map (fun ms => ms.specReplicas.getD 0)).sum

/-- Modelled from the spec: `sort.Sort(util.MachineSetsByCreationTimestamp(...))`
is not under src/; the spec says "iterate oldMSes in ascending creation
time". -/
def sortByCreationTimestamp (machineSets : List MachineSet) : List MachineSet :=
  List.insertionSort (fun a b => a.creationTimestamp ≤ b.creationTimestamp) machineSets

/-- The loop body of `cleanupUnhealthyReplicas`: walks the (already
sorted) old machine sets and scales each one with unhealthy replicas down
by `min(unhealthy, remaining budget)`.  The embedding returns the list of
`(machine set, amount scaled down)` actions performed together with the
final `totalScaledDown` (the Go code performs each action through
`scaleMachineSet`; API errors are not modelled). -/
def cleanupPass : List MachineSet → Int → Int → Except String (List (MachineSet × Int) × Int)
  | [], _, totalScaledDown => .ok ([], totalScaledDown)
  | targetMS :: rest, maxCleanupCount, totalScaledDown =>
    match targetMS.specReplicas with
    | none => .error ("spec replicas for machine set " ++ targetMS.name ++ " is nil")
    | some oldMSReplicas =>
      if totalScaledDown ≥ maxCleanupCount then .ok ([], totalScaledDown)
      else if oldMSReplicas = 0 then cleanupPass rest maxCleanupCount totalScaledDown
      else if oldMSReplicas = targetMS.statusAvailableReplicas then
        cleanupPass rest maxCleanupCount totalScaledDown
      else
        let remainingCleanupCount := maxCleanupCount - totalScaledDown
        let unhealthyCount := oldMSReplicas - targetMS.statusAvailableReplicas
        let scaledDownCount := min remainingCleanupCount unhealthyCount
        let newReplicasCount := oldMSReplicas - scaledDownCount
        if newReplicasCount > oldMSReplicas then
          .error ("when cleaning up unhealthy replicas, got invalid request to scale down " ++
            targetMS.name)
        else
          match cleanupPass rest maxCleanupCount (totalScaledDown + scaledDownCount) with
          | .error e => .error e
          | .ok (actions, total) => .ok ((targetMS, scaledDownCount) :: actions, total)

/-- `cleanupUnhealthyReplicas` from the machine-deployment rolling
update: sort the old machine sets by ascending creation time, then run
the scale-down loop with budget `maxCleanupCount`. -/
def cleanupUnhealthyReplicas (oldMSs : List MachineSet) (maxCleanupCount : Int) :
    Except String (List (MachineSet × Int) × Int) :=
  cleanupPass (sortByCreationTimestamp oldMSs) maxCleanupCount 0

/-- `reconcileOldMachineSets` up to and including its first
(unhealthy-cleanup) pass.  Returns the cleanup actions performed; the
early-return paths perform none.  The second pass
(`scaleDownOldMachineSetsForRollingUpdate`) is outside this embedding. -/
def reconcileOldMachineSetsFirstPass (allMSs oldMSs : List MachineSet)
    (newMS : MachineSet) (deployment : MachineDeployment) :
    Except String (List (MachineSet × Int) × Int) :=
  match deployment.replicas with
  | none => .error ("spec replicas for deployment set " ++ deployment.name ++
      " is nil, this is unexpected")
  | some deploymentReplicas =>
    match newMS.specReplicas with
    | none => .error ("spec replicas for machine set " ++ newMS.name ++
        " is nil, this is unexpected")
    | some newMSReplicas =>
      let oldMachinesCount := getReplicaCountForMachineSets oldMSs
      if oldMachinesCount = 0 then .ok ([], 0)
      else
        let allMachinesCount := getReplicaCountForMachineSets allMSs
        let minAvailable := deploymentReplicas - deployment.maxUnavailable
        let newMSUnavailableMachineCount := newMSReplicas - newMS.statusAvailableReplicas
        let maxScaledDown := allMachinesCount - minAvailable - newMSUnavailableMachineCount
        if maxScaledDown ≤ 0 then .ok ([], 0)
        else cleanupUnhealthyReplicas oldMSs maxScaledDown

/-- The per-element body of the `cleanupDeployment` loop: delete (collect)
every machine set of the candidate window that has zero status replicas,
zero spec replicas, an up-to-date observed generation and no deletion
timestamp.  Returns the deleted machine sets in deletion order. -/
def cleanupDeploymentLoop : List MachineSet → Except String (List MachineSet)
  | [] => .ok []
  | ms :: rest =>
    match ms.specReplicas with
    | none => .error ("spec replicas for MachineSets " ++ ms.name ++
        " is nil, this is unexpected")
    | some specReplicas =>
      if ms.statusReplicas ≠ 0 ∨ specReplicas ≠ 0 ∨
          ms.generation > ms.observedGeneration ∨ ms.deletionTimestamp ≠ none then
        cleanupDeploymentLoop rest
      else
        match cleanupDeploymentLoop rest with
        | .error e => .error e
        | .ok deleted => .ok (ms :: deleted)

/-- `cleanupDeployment` from the machine-deployment controller: trim old
machine sets down to `Spec.RevisionHistoryLimit`.  The embedding returns
the list of deleted machine sets (API deletion errors are not
modelled). -/
def cleanupDeployment (oldMSs : List MachineSet) (deployment : MachineDeployment) :
    Except String (List MachineSet) :=
  match deployment.revisionHistoryLimit with
  | none => .ok []
  | some limit =>
    let cleanableMSes := oldMSs.filter (fun ms => ms.deletionTimestamp = none)
    let diff := (cleanableMSes.length : Int) - limit
    if diff ≤ 0 then .ok []
    else cleanupDeploymentLoop ((sortByCreationTimestamp cleanableMSes).take diff.toNat)

/-- Embeds `corev1.NodeCondition` restricted to the read fields. -/
structure NodeCondition where
  condType : String
  status : String
  /-- `LastTransitionTime` in seconds; `0` is the zero time. -/
  lastTransitionTime : Int
  deriving Repr, DecidableEq

/-- Embeds `corev1.Node` restricted to `Status.Conditions`. -/
structure Node where
  conditions : List NodeCondition
  deriving Repr, DecidableEq

/-- `corev1.NodeReady` / `corev1.ConditionTrue` string values. -/
def NodeReady : String := "Ready"

/-- `corev1.ConditionTrue`. -/
def ConditionTrue : String := "True"

/-- `isNodeReady` from the machine-set status computation: the node is
ready iff its first `Ready`-type condition has status `True` (a nil node
is not ready). -/
def isNodeReady : Option Node → Bool
  | none => false
  | some node =>
    match node.conditions.find? (fun c => c.condType = NodeReady) with
    | some c => c.status = ConditionTrue
    | none => false

/-- `getReadyCondition`: the first `Ready`-type condition, if present. -/
def getReadyCondition (node : Node) : Option NodeCondition :=
  node.conditions.find? (fun c => c.condType = NodeReady)

/-- `isNodeAvailable` from the machine-set status computation: ready,
and either `minReadySeconds` is zero or the ready condition's (non-zero)
last transition time plus `minReadySeconds` is strictly before `now`.
(When the node is ready, `getReadyCondition` is necessarily `some`; the
`none` fallback mirrors the unreachable nil branch.) -/
def isNodeAvailable (node : Option Node) (minReadySeconds : Int) (now : Int) : Bool :=
  if ¬ isNodeReady node then false
  else if minReadySeconds = 0 then true
  else
    match node with
    | none => false
    | some n =>
      match getReadyCondition n with
      | none => false
      | some readyCondition =>
        ¬ readyCondition.lastTransitionTime = 0 ∧
          readyCondition.lastTransitionTime + minReadySeconds < now

/-- `getMachineNode`: fetch the node bound to a machine; fails (`none`)
when the machine has no node ref or the node cannot be fetched.  The
cluster's nodes are modelled as a partial map from name to node. -/
def getMachineNode (nodes : String → Option Node) (machine : Machine) : Option Node :=
  match machine.nodeRefName with
  | none => none
  | some name => nodes name

/-- Go map lookup through the label selector: `labels.Set(template)`
turned into a selector matches a machine whose labels give every template
key the template's value (a missing key reads as `""`). -/
def labelsMatch (templateLabels : List (String × String))
    (machineLabels : Option (List (String × String))) : Bool :=
  templateLabels.all (fun kv => mapLookup machineLabels kv.1 = kv.2)

/-- The counters produced by `calculateStatus`. -/
structure MachineSetStatus where
  replicas : Int
  fullyLabeledReplicas : Int
  readyReplicas : Int
  availableReplicas : Int
  deriving Repr, DecidableEq

/-- The counting loop of `calculateStatus`: per filtered machine, count
template-label matches; skip the node counters when the node fetch
fails; count readiness and (nested) availability. -/
def statusCountsLoop (nodes : String → Option Node)
    (templateLabels : List (String × String)) (minReadySeconds now : Int) :
    List Machine → Nat × Nat × Nat
  | [] => (0, 0, 0)
  | machine :: rest =>
    let (fl, rd, av) := statusCountsLoop nodes templateLabels minReadySeconds now rest
    let fl := if labelsMatch templateLabels machine.labels then fl + 1 else fl
    match getMachineNode nodes machine with
    | none => (fl, rd, av)
    | some node =>
      if isNodeReady (some node) then
        if isNodeAvailable (some node) minReadySeconds now then (fl, rd + 1, av + 1)
        else (fl, rd + 1, av)
      else (fl, rd, av)

/-- `calculateStatus` from the machine-set controller, restricted to the
four replica counters (the returned status copies the rest). -/
def calculateStatus (nodes : String → Option Node)
    (templateLabels : List (String × String)) (minReadySeconds now : Int)
    (filteredMachines : List Machine) : MachineSetStatus :=
  let (fl, rd, av) := statusCountsLoop nodes templateLabels minReadySeconds now filteredMachines
  { replicas := filteredMachines.length
    fullyLabeledReplicas := fl
    readyReplicas := rd
    availableReplicas := av }

/-! ### CSR approver (nodecsrapprover) -/

/-- Embeds `x509.CertificateRequest` restricted to the read fields.  IP
addresses are modelled by their `String()` rendering (the code compares
`ip.String()` against the address set). -/
structure CertificateRequest where
  commonName : String
  organization : List String
  dnsNames : List String
  ipAddresses : List String
  deriving Repr, DecidableEq

/-- Embeds `certificatesv1.CertificateSigningRequest` restricted to the
read fields.  `request` models the PEM-decoded `Spec.Request`: the list
of PEM blocks, each carrying its x509 parse result (`none` when
`x509.ParseCertificateRequest` would fail on it). -/
structure CSR where
  username : String
  groups : List String
  usages : List String
  /-- The condition types present in `Status.Conditions`. -/
  conditionTypes : List String
  request : List (Option CertificateRequest)
  deriving Repr, DecidableEq

/-- `certificatesv1.CertificateApproved`. -/
def CertificateApproved : String := "Approved"

/-- `nodeUserPrefix = "system:node:"` of the CSR approver. -/
def nodeUsernameStart : String := "system:node:"

/-- `nodeGroup = "system:nodes"`. -/
def nodeGroup : String := "system:nodes"

/-- `authenticatedGroup = "system:authenticated"`. -/
def authenticatedGroup : String := "system:authenticated"

/-- `allowedUsages`: digital signature, key encipherment, server auth. -/
def allowedUsages : List String :=
  ["digital signature", "key encipherment", "server auth"]

/-- `isUsageInUsageList`. -/
def isUsageInUsageList (usage : String) (usageList : List String) : Bool :=
  usageList.any (fun u => usage = u)

/-- `strings.HasPrefix`, modelled character-wise (the usernames involved
are ASCII, where Go's byte-wise check coincides). -/
def goStartsWith (s pre : String) : Bool :=
  List.isPrefixOf pre.data s.data

/-- Dropping the matched leading characters, as `strings.TrimPrefix`
does after the `HasPrefix` check. -/
def stringDropChars (s : String) (n : Nat) : String :=
  String.mk (s.data.drop n)

/-- `validateCSRObject`: check the username, the groups and the usages,
returning the node name encoded in the username. -/
def validateCSRObject (csr : CSR) : Except String String :=
  if ¬ goStartsWith csr.username nodeUsernameStart then
    .error "username must have the node-user prefix"
  else if (stringDropChars csr.username nodeUsernameStart.length).length = 0 then
    .error "node name is empty"
  else if csr.groups.length < 2 then .error "there are less than 2 groups"
  else if ¬ (nodeGroup ∈ csr.groups ∧ authenticatedGroup ∈ csr.groups) then
    .error "required groups are missing"
  else if ¬ csr.usages.all (fun usage => isUsageInUsageList usage allowedUsages) then
    .error "usage is not in the list of allowed usages"
  else .ok (stringDropChars csr.username nodeUsernameStart.length)

/-- The machine address set of `validateX509CSR`: the node-ref name plus
every status address.  (`validateX509CSR` is only reached with a machine
found by node ref, so `nodeRefName` is read with default `""`.) -/
def machineAddressSet (machine : Machine) : List String :=
  machine.nodeRefName.getD "" :: machine.addresses

/-- `validateX509CSR`: the certificate request's common name must equal
the CSR username, its organization must be exactly `[system:nodes]`, and
every non-empty DNS/IP SAN must be in the machine's address set. -/
def validateX509CSR (csr : CSR) (certReq : CertificateRequest) (machine : Machine) :
    Except String Unit :=
  if ¬ certReq.commonName = csr.username then
    .error "commonName is different then CSR username"
  else if ¬ certReq.organization.length = 1 then
    .error "expected only one organization"
  else if ¬ certReq.organization.headD "" = nodeGroup then
    .error "organization does not match node group"
  else if ¬ certReq.dnsNames.all
      (fun dns => dns.length = 0 || dns ∈ machineAddressSet machine) then
    .error "dns name cannot be associated with node"
  else if ¬ certReq.ipAddresses.all
      (fun ip => ip.length = 0 || ip ∈ machineAddressSet machine) then
    .error "ip address cannot be associated with node"
  else .ok ()

/-- `getMachineForNode`: the first machine whose `status.nodeRef.name`
equals the node name (`none` models the not-found error). -/
def getMachineForNode (machines : List Machine) (nodeName : String) : Option Machine :=
  machines.find? (fun machine => machine.nodeRefName = some nodeName)

/-- `pem.Decode` + single-block check + `x509.ParseCertificateRequest`
as performed inline by `reconcile`. -/
def decodeCertificateRequest : List (Option CertificateRequest) →
    Except String CertificateRequest
  | [] => .error "no certificate request found for the given CSR"
  | [block] =>
    match block with
    | some certRequest => .ok certRequest
    | none => .error "failed to parse the certificate request"
  | _ :: _ :: _ => .error "found more than one PEM encoded block in the result"

/-- The observable outcome of `reconciler.reconcile`. -/
inductive ReconcileOutcome where
  /-- The approval condition was appended and the CSR approved. -/
  | approved
  /-- The function returned `nil` without approving (CSR left pending). -/
  | skipped
  /-- The function returned an error without approving. -/
  | failed (msg : String)
  deriving Repr, DecidableEq

/-- `reconciler.reconcile` of the CSR approver, with the cluster's
machines passed in place of the API reads. -/
def reconcile (machines : List Machine) (csr : CSR) : ReconcileOutcome :=
  if CertificateApproved ∈ csr.conditionTypes then .skipped
  else
    match validateCSRObject csr with
    | .error _ => .skipped
    | .ok nodeName =>
      match getMachineForNode machines nodeName with
      | none => .failed ("no machine found for given node " ++ nodeName)
      | some machine =>
        match decodeCertificateRequest csr.request with
        | .error e => .failed e
        | .ok certRequest =>
          match validateX509CSR csr certRequest machine with
          | .error e => .failed ("error validating the x509 certificate request: " ++ e)
          | .ok _ => .approved

/-! ### Config variable resolver (configvar) -/

/-- Embeds `providerconfig.GlobalSecretKeySelector` /
`GlobalConfigMapKeySelector`: namespace, name and key. -/
structure GlobalObjectKeySelector where
  objNamespace : String
  name : String
  key : String
  deriving Repr, DecidableEq

/-- Embeds `providerconfig.ConfigVarString`. -/
structure ConfigVarString where
  value : String
  secretKeyRef : GlobalObjectKeySelector
  configMapKeyRef : GlobalObjectKeySelector
  deriving Repr, DecidableEq

/-- The control-plane state a `Resolver` reads: secrets and config maps
indexed by namespace and name (`none` models a failed `Get`), each a
partial map from key to value, and the process environment
(`os.LookupEnv`). -/
structure ResolverState where
  secrets : String → String → Option (String → Option String)
  configMaps : String → String → Option (String → Option String)
  env : String → Option String

/-- `Resolver.GetStringValue`: a fully-specified `secretKeyRef` wins,
then a fully-specified `configMapKeyRef`, and otherwise the literal
`value` is returned. -/
def GetStringValue (r : ResolverState) (configVar : ConfigVarString) :
    Except String String :=
  if configVar.secretKeyRef.name ≠ "" ∧ configVar.secretKeyRef.objNamespace ≠ "" ∧
      configVar.secretKeyRef.key ≠ "" then
    match r.secrets configVar.secretKeyRef.objNamespace configVar.secretKeyRef.name with
    | none => .error ("error retrieving secret " ++ configVar.secretKeyRef.name ++
        " from namespace " ++ configVar.secretKeyRef.objNamespace)
    | some data =>
      match data configVar.secretKeyRef.key with
      | some val => .ok val
      | none => .error ("secret " ++ configVar.secretKeyRef.name ++ " in namespace " ++
          configVar.secretKeyRef.objNamespace ++ " has no key " ++ configVar.secretKeyRef.key)
  else if configVar.configMapKeyRef.name ≠ "" ∧ configVar.configMapKeyRef.objNamespace ≠ "" ∧
      configVar.configMapKeyRef.key ≠ "" then
    match r.configMaps configVar.configMapKeyRef.objNamespace configVar.configMapKeyRef.name with
    | none => .error ("error retrieving configmap " ++ configVar.configMapKeyRef.name ++
        " from namespace " ++ configVar.configMapKeyRef.objNamespace)
    | some data =>
      match data configVar.configMapKeyRef.key with
      | some val => .ok val
      | none => .error ("configmap " ++ configVar.configMapKeyRef.name ++ " in namespace " ++
          configVar.configMapKeyRef.objNamespace ++ " has no key " ++
          configVar.configMapKeyRef.key)
  else .ok configVar.value

/-- `Resolver.GetStringValueOrEnv`: use `GetStringValue` when it
succeeds with a non-empty string, otherwise fall back to the environment
variable (`""` when unset), never failing. -/
def GetStringValueOrEnv (r : ResolverState) (configVar : ConfigVarString)
    (envVarName : String) : Except String String :=
  match GetStringValue r configVar with
  | .ok cfgVar =>
    if cfgVar.length > 0 then .ok cfgVar
    else .ok ((r.env envVarName).getD "")
  | .error _ => .ok ((r.env envVarName).getD "")

/-! ## Sample objects used by witnesses and counterexamples -/

/-- A machine with none of the special-case fields set, created at time 10. -/
def exPlainMachine : Machine :=
  { deletionTimestamp := none, annotations := none, creationTimestamp := 10,
    labels := none, errorReason := none, errorMessage := none,
    nodeRefName := none, addresses := [] }

/-- A machine with a (non-zero) deletion timestamp. -/
def exDeletedMachine : Machine :=
  { deletionTimestamp := some 1, annotations := none, creationTimestamp := 10,
    labels := none, errorReason := none, errorMessage := none,
    nodeRefName := none, addresses := [] }

/-! ## Claims -/

/-- C5: `getDeletePriorityFunc` maps `"Random"` and `""` to the random
priority function, `"Newest"` to the newest-first function, `"Oldest"` to
the oldest-first function, and every other value to an error. -/
theorem C5_delete_policy_map (ms : MachineSet) :
    (ms.deletePolicy = "Random" → getDeletePriorityFunc ms = .ok randomDeletePolicyFn) ∧
    (ms.deletePolicy = "" → getDeletePriorityFunc ms = .ok randomDeletePolicyFn) ∧
    (ms.deletePolicy = "Newest" → getDeletePriorityFunc ms = .ok newestDeletePriority) ∧
    (ms.deletePolicy = "Oldest" → getDeletePriorityFunc ms = .ok oldestDeletePriority) ∧
    (ms.deletePolicy ∉ ["Random", "", "Newest", "Oldest"] →
      ∃ e, getDeletePriorityFunc ms = .error e) := by
  unfold getDeletePriorityFunc RandomMachineSetDeletePolicy NewestMachineSetDeletePolicy
    OldestMachineSetDeletePolicy
  refine ⟨fun h => ?_, fun h => ?_, fun h => ?_, fun h => ?_, fun h => ?_⟩ <;>
    simp_all

/-- Witness for C5 at the concrete policies `"Random"` and `"Invalid"`. -/
theorem C5_delete_policy_map_witness :
    getDeletePriorityFunc
        { name := "ms", specReplicas := none, statusReplicas := 0,
          statusAvailableReplicas := 0, creationTimestamp := 0,
          deletionTimestamp := none, generation := 0, observedGeneration := 0,
          deletePolicy := "Random" } = .ok randomDeletePolicyFn ∧
    (∃ e, getDeletePriorityFunc
        { name := "ms", specReplicas := none, statusReplicas := 0,
          statusAvailableReplicas := 0, creationTimestamp := 0,
          deletionTimestamp := none, generation := 0, observedGeneration := 0,
          deletePolicy := "Invalid" } = .error e) :=
  ⟨(C5_delete_policy_map _).1 rfl, (C5_delete_policy_map _).2.2.2.2 (by decide)⟩

/-- C8 (counterexample): for a machine whose deletion timestamp is set,
`newestDeletePriority` is `mustDelete = 100` while
`100 - oldestDeletePriority` is `0`, so the claimed identity fails on
machines that are not scored by age. -/
theorem C8_counterexample_deleted_machine :
    ¬ newestDeletePriority 15 exDeletedMachine =
        100 - oldestDeletePriority 15 exDeletedMachine := by
  have h : hasDeletionTimestamp exDeletedMachine = true := by decide
  simp only [newestDeletePriority, oldestDeletePriority, h, if_true, mustDelete]
  norm_num

/-- C8 (amended): for every machine actually scored by age — no deletion
timestamp, no delete-machine annotation, no error fields, non-zero
creation timestamp and positive age — `newestDeletePriority` is `100`
minus `oldestDeletePriority`, and `oldestDeletePriority` is
`100 × (1 − exp(−age_seconds / 864000))`. -/
theorem C8_newest_is_complement_of_oldest (now : Int) (m : Machine)
    (h1 : hasDeletionTimestamp m = false)
    (h2 : hasDeleteAnnotation m = false)
    (h3 : hasErrorField m = false)
    (h4 : ¬ m.creationTimestamp = 0)
    (h5 : 0 < now - m.creationTimestamp) :
    newestDeletePriority now m = 100 - oldestDeletePriority now m ∧
    oldestDeletePriority now m =
      100 * (1 - Real.exp (-((now - m.creationTimestamp : Int) : ℝ) / 864000)) := by
  have h6 : ¬ (now - m.creationTimestamp : Int) < 0 := by omega
  constructor
  · simp only [newestDeletePriority, h1, h2, h3, Bool.false_eq_true, if_false, mustDelete]
  · simp only [oldestDeletePriority, h1, h2, h3, h4, h6, Bool.false_eq_true, if_false,
      mustDelete, secondsPerTenDays]

/-- Witness for C8 at a machine created at time 10, scored at time 15. -/
theorem C8_newest_is_complement_of_oldest_witness :
    newestDeletePriority 15 exPlainMachine =
      100 - oldestDeletePriority 15 exPlainMachine ∧
    oldestDeletePriority 15 exPlainMachine =
      100 * (1 - Real.exp (-((15 - exPlainMachine.creationTimestamp : Int) : ℝ) / 864000)) :=
  C8_newest_is_complement_of_oldest 15 exPlainMachine (by decide) (by decide)
    (by decide) (by decide) (by decide)

/-- A resolver state with one secret `ns/sec` holding `key ↦ fromsecret`,
no config maps, and one environment variable `ENVVAR ↦ fromenv`. -/
def exResolver : ResolverState :=
  { secrets := fun ns name =>
      if ns = "ns" ∧ name = "sec" then
        some (fun k => if k = "key" then some "fromsecret" else none)
      else none
    configMaps := fun _ _ => none
    env := fun n => if n = "ENVVAR" then some "fromenv" else none }

/-- A config variable carrying both a literal value and a fully-specified
secret reference. -/
def exConfigVarBoth : ConfigVarString :=
  { value := "literal"
    secretKeyRef := { objNamespace := "ns", name := "sec", key := "key" }
    configMapKeyRef := { objNamespace := "", name := "", key := "" } }

/-- C4 (counterexample): the literal value is not tried first.  With both
a non-empty literal value and a fully-specified secret reference,
`GetStringValue` returns the secret's value, not the literal. -/
theorem C4_counterexample_secret_beats_literal :
    GetStringValue exResolver exConfigVarBoth = .ok "fromsecret" ∧
    exConfigVarBoth.value = "literal" ∧ ¬ ("fromsecret" = "literal") := by
  refine ⟨rfl, rfl, by decide⟩

/-- C4 (amended): `GetStringValue` tries the three sources in the order
secretKeyRef (when namespace, name and key are all non-empty), then
configMapKeyRef (likewise), then the literal value; and
`GetStringValueOrEnv` falls back to the named environment variable
exactly when the resolved value is empty or errored. -/
theorem C4_resolution_order (r : ResolverState) (configVar : ConfigVarString)
    (envVarName : String) :
    (configVar.secretKeyRef.name ≠ "" ∧ configVar.secretKeyRef.objNamespace ≠ "" ∧
        configVar.secretKeyRef.key ≠ "" →
      GetStringValue r configVar =
        match r.secrets configVar.secretKeyRef.objNamespace configVar.secretKeyRef.name with
        | none => .error ("error retrieving secret " ++ configVar.secretKeyRef.name ++
            " from namespace " ++ configVar.secretKeyRef.objNamespace)
        | some data =>
          match data configVar.secretKeyRef.key with
          | some val => .ok val
          | none => .error ("secret " ++ configVar.secretKeyRef.name ++ " in namespace " ++
              configVar.secretKeyRef.objNamespace ++ " has no key " ++
              configVar.secretKeyRef.key)) ∧
    (¬ (configVar.secretKeyRef.name ≠ "" ∧ configVar.secretKeyRef.objNamespace ≠ "" ∧
        configVar.secretKeyRef.key ≠ "") →
      configVar.configMapKeyRef.name ≠ "" ∧ configVar.configMapKeyRef.objNamespace ≠ "" ∧
        configVar.configMapKeyRef.key ≠ "" →
      GetStringValue r configVar =
        match r.configMaps configVar.configMapKeyRef.objNamespace
            configVar.configMapKeyRef.name with
        | none => .error ("error retrieving configmap " ++ configVar.configMapKeyRef.name ++
            " from namespace " ++ configVar.configMapKeyRef.objNamespace)
        | some data =>
          match data configVar.configMapKeyRef.key with
          | some val => .ok val
          | none => .error ("configmap " ++ configVar.configMapKeyRef.name ++
              " in namespace " ++ configVar.configMapKeyRef.objNamespace ++ " has no key " ++
              configVar.configMapKeyRef.key)) ∧
    (¬ (configVar.secretKeyRef.name ≠ "" ∧ configVar.secretKeyRef.objNamespace ≠ "" ∧
        configVar.secretKeyRef.key ≠ "") →
      ¬ (configVar.configMapKeyRef.name ≠ "" ∧ configVar.configMapKeyRef.objNamespace ≠ "" ∧
        configVar.configMapKeyRef.key ≠ "") →
      GetStringValue r configVar = .ok configVar.value) ∧
    (∀ v, GetStringValue r configVar = .ok v → v ≠ "" →
      GetStringValueOrEnv r configVar envVarName = .ok v) ∧
    (GetStringValue r configVar = .ok "" ∨ (∃ e, GetStringValue r configVar = .error e) →
      GetStringValueOrEnv r configVar envVarName = .ok ((r.env envVarName).getD "")) := by
  refine ⟨fun h => ?_, fun h h2 => ?_, fun h h2 => ?_, fun v hv hne => ?_, fun h => ?_⟩
  · simp only [GetStringValue, if_pos h]
  · simp only [GetStringValue, if_neg h, if_pos h2]
  · simp only [GetStringValue, if_neg h, if_neg h2]
  · simp only [GetStringValueOrEnv, hv]
    have hvne : ¬ v.length = 0 := by
      intro hl
      apply hne
      cases v with
      | mk data =>
        cases data with
        | nil => rfl
        | cons a l => simp [String.length] at hl
    have : v.length > 0 := Nat.pos_of_ne_zero hvne
    simp [this]
  · rcases h with h | ⟨e, h⟩
    · simp [GetStringValueOrEnv, h]
    · simp [GetStringValueOrEnv, h]

/-- Witness for C4: the secret wins over the literal, and the
environment fallback fires for an empty resolution. -/
theorem C4_resolution_order_witness :
    GetStringValue exResolver exConfigVarBoth =
      (match exResolver.secrets exConfigVarBoth.secretKeyRef.objNamespace
          exConfigVarBoth.secretKeyRef.name with
      | none => .error ("error retrieving secret " ++ exConfigVarBoth.secretKeyRef.name ++
          " from namespace " ++ exConfigVarBoth.secretKeyRef.objNamespace)
      | some data =>
        match data exConfigVarBoth.secretKeyRef.key with
        | some val => .ok val
        | none => .error ("secret " ++ exConfigVarBoth.secretKeyRef.name ++ " in namespace " ++
            exConfigVarBoth.secretKeyRef.objNamespace ++ " has no key " ++
            exConfigVarBoth.secretKeyRef.key)) :=
  (C4_resolution_order exResolver exConfigVarBoth "ENVVAR").1 (by decide)

/-- The three counters of `statusCountsLoop` count, respectively, the
machines whose labels match the template, those whose fetched node is
ready, and those whose fetched node is available. -/
theorem statusCountsLoop_eq_countP (nodes : String → Option Node)
    (templateLabels : List (String × String)) (minReadySeconds now : Int)
    (machines : List Machine) :
    statusCountsLoop nodes templateLabels minReadySeconds now machines =
      (machines.countP (fun m => labelsMatch templateLabels m.labels),
       machines.countP (fun m => isNodeReady (getMachineNode nodes m)),
       machines.countP (fun m =>
         isNodeAvailable (getMachineNode nodes m) minReadySeconds now)) := by
  induction machines with
  | nil => simp [statusCountsLoop, List.countP_nil]
  | cons machine rest ih =>
    simp only [statusCountsLoop, ih, List.countP_cons]
    cases hn : getMachineNode nodes machine with
    | none =>
      have hr : isNodeReady none = false := rfl
      have ha : isNodeAvailable none minReadySeconds now = false := by
        simp [isNodeAvailable, isNodeReady]
      simp [hn, hr, ha]
      by_cases hl : labelsMatch templateLabels machine.labels <;> simp [hl]
    | some node =>
      by_cases hready : isNodeReady (some node)
      · by_cases havail : isNodeAvailable (some node) minReadySeconds now
        · simp [hn, hready, havail]
          by_cases hl : labelsMatch templateLabels machine.labels <;> simp [hl]
        · simp [hn, hready, havail]
          by_cases hl : labelsMatch templateLabels machine.labels <;> simp [hl]
      · have havail : isNodeAvailable (some node) minReadySeconds now = false := by
          simp [isNodeAvailable, hready]
        simp [hn, hready, havail]
        by_cases hl : labelsMatch templateLabels machine.labels <;> simp [hl]

/-- An available node is ready. -/
theorem isNodeAvailable_implies_ready (node : Option Node) (minReadySeconds now : Int) :
    isNodeAvailable node minReadySeconds now = true → isNodeReady node = true := by
  unfold isNodeAvailable
  by_cases h : isNodeReady node
  · intro _; exact h
  · simp [h]

/-- `calculateStatus` written as counting predicates over the filtered
machines. -/
theorem calculateStatus_eq_countP (nodes : String → Option Node)
    (templateLabels : List (String × String)) (minReadySeconds now : Int)
    (machines : List Machine) :
    calculateStatus nodes templateLabels minReadySeconds now machines =
      { replicas := (machines.length : Int)
        fullyLabeledReplicas :=
          (machines.countP (fun m => labelsMatch templateLabels m.labels) : Int)
        readyReplicas :=
          (machines.countP (fun m => isNodeReady (getMachineNode nodes m)) : Int)
        availableReplicas :=
          (machines.countP (fun m =>
            isNodeAvailable (getMachineNode nodes m) minReadySeconds now) : Int) } := by
  simp [calculateStatus, statusCountsLoop_eq_countP]

/-- C10: the counters of `calculateStatus` are non-negative,
`availableReplicas ≤ readyReplicas ≤ replicas`,
`fullyLabeledReplicas ≤ replicas`, and `replicas` is the number of
filtered machines. -/
theorem C10_status_counter_invariants (nodes : String → Option Node)
    (templateLabels : List (String × String)) (minReadySeconds now : Int)
    (filteredMachines : List Machine) :
    0 ≤ (calculateStatus nodes templateLabels minReadySeconds now
        filteredMachines).availableReplicas ∧
    (calculateStatus nodes templateLabels minReadySeconds now
        filteredMachines).availableReplicas ≤
      (calculateStatus nodes templateLabels minReadySeconds now
        filteredMachines).readyReplicas ∧
    (calculateStatus nodes templateLabels minReadySeconds now
        filteredMachines).readyReplicas ≤
      (calculateStatus nodes templateLabels minReadySeconds now
        filteredMachines).replicas ∧
    0 ≤ (calculateStatus nodes templateLabels minReadySeconds now
        filteredMachines).fullyLabeledReplicas ∧
    (calculateStatus nodes templateLabels minReadySeconds now
        filteredMachines).fullyLabeledReplicas ≤
      (calculateStatus nodes templateLabels minReadySeconds now
        filteredMachines).replicas ∧
    (calculateStatus nodes templateLabels minReadySeconds now
        filteredMachines).replicas = (filteredMachines.length : Int) := by
  rw [calculateStatus_eq_countP]
  refine ⟨Int.ofNat_nonneg _, ?_, ?_, Int.ofNat_nonneg _, ?_, rfl⟩
  · exact Int.ofNat_le.mpr (List.countP_mono_left (fun m _ hm =>
      isNodeAvailable_implies_ready (getMachineNode nodes m) minReadySeconds now hm))
  · exact Int.ofNat_le.mpr (List.countP_le_length _)
  · exact Int.ofNat_le.mpr (List.countP_le_length _)

/-- A node that has been ready since time 5. -/
def exReadyNode : Node :=
  { conditions := [{ condType := "Ready", status := "True", lastTransitionTime := 5 }] }

/-- A machine bound to node `node1`. -/
def exBoundMachine : Machine :=
  { deletionTimestamp := none, annotations := none, creationTimestamp := 1,
    labels := none, errorReason := none, errorMessage := none,
    nodeRefName := some "node1", addresses := [] }

/-- The node map holding only `node1 ↦ exReadyNode`. -/
def exNodes : String → Option Node :=
  fun name => if name = "node1" then some exReadyNode else none

/-- C7 (counterexample): with `minReadySeconds = 10`, a node ready since
time 5 evaluated at time 15 has been ready for exactly 10 seconds — at
least `minReadySeconds` — yet its machine is counted ready and not
available, because the code requires strictly more than
`minReadySeconds` to have elapsed. -/
theorem C7_counterexample_boundary_not_available :
    isNodeReady (getMachineNode exNodes exBoundMachine) = true ∧
    15 - 5 ≥ (10 : Int) ∧
    (calculateStatus exNodes [] 10 15 [exBoundMachine]).readyReplicas = 1 ∧
    (calculateStatus exNodes [] 10 15 [exBoundMachine]).availableReplicas = 0 := by
  refine ⟨rfl, by decide, rfl, rfl⟩

/-- C7 (amended): `calculateStatus` counts in `readyReplicas` exactly the
machines whose fetched node is ready, and in `availableReplicas` exactly
those whose node is ready and either `minReadySeconds` is zero or the
ready condition's last transition time is non-zero and strictly more
than `minReadySeconds` before `now`; availability implies readiness, and
a machine whose node cannot be fetched, or whose `Ready` condition is
absent or not `True`, is counted in neither. -/
theorem C7_available_replicas_characterization (nodes : String → Option Node)
    (templateLabels : List (String × String)) (minReadySeconds now : Int)
    (machines : List Machine) :
    (calculateStatus nodes templateLabels minReadySeconds now machines).readyReplicas =
      (machines.countP (fun m => isNodeReady (getMachineNode nodes m)) : Int) ∧
    (calculateStatus nodes templateLabels minReadySeconds now machines).availableReplicas =
      (machines.countP (fun m =>
        isNodeAvailable (getMachineNode nodes m) minReadySeconds now) : Int) ∧
    (∀ m : Machine, isNodeAvailable (getMachineNode nodes m) minReadySeconds now = true →
      isNodeReady (getMachineNode nodes m) = true) ∧
    (∀ m : Machine, getMachineNode nodes m = none →
      isNodeReady (getMachineNode nodes m) = false ∧
      isNodeAvailable (getMachineNode nodes m) minReadySeconds now = false) ∧
    (∀ (m : Machine) (node : Node), getMachineNode nodes m = some node →
      (isNodeAvailable (some node) minReadySeconds now = true ↔
        isNodeReady (some node) = true ∧
          (minReadySeconds = 0 ∨ ∃ c, getReadyCondition node = some c ∧
            ¬ c.lastTransitionTime = 0 ∧ c.lastTransitionTime + minReadySeconds < now))) := by
  refine ⟨?_, ?_, fun m => isNodeAvailable_implies_ready _ _ _, fun m hm => ?_, fun m node _ => ?_⟩
  · rw [calculateStatus_eq_countP]
  · rw [calculateStatus_eq_countP]
  · rw [hm]
    exact ⟨rfl, by simp [isNodeAvailable, isNodeReady]⟩
  · constructor
    · intro h
      refine ⟨isNodeAvailable_implies_ready _ _ _ h, ?_⟩
      by_cases h0 : minReadySeconds = 0
      · exact Or.inl h0
      · refine Or.inr ?_
        unfold isNodeAvailable at h
        have hready := isNodeAvailable_implies_ready _ _ _ h
        simp only [hready, not_true_eq_false, if_false, h0, if_neg h0] at h
        cases hc : getReadyCondition node with
        | none => rw [hc] at h; simp at h
        | some c =>
          rw [hc] at h
          refine ⟨c, rfl, ?_⟩
          simpa using h
    · rintro ⟨hready, h0 | ⟨c, hc, hne, hlt⟩⟩
      · simp [isNodeAvailable, hready, h0]
      · simp [isNodeAvailable, hready, hc, hne, hlt]

/-- Machine sets collected by `cleanupDeploymentLoop` form a sublist of
the candidate window and all satisfy the deletion guard. -/
theorem cleanupDeploymentLoop_spec (l : List MachineSet) (deleted : List MachineSet)
    (h : cleanupDeploymentLoop l = .ok deleted) :
    deleted.Sublist l ∧
    ∀ ms ∈ deleted, ms.deletionTimestamp = none ∧ ms.statusReplicas = 0 ∧
      ms.specReplicas = some 0 ∧ ms.generation ≤ ms.observedGeneration := by
  induction l generalizing deleted with
  | nil =>
    simp only [cleanupDeploymentLoop] at h
    cases h
    exact ⟨List.Sublist.refl _, by simp⟩
  | cons ms rest ih =>
    simp only [cleanupDeploymentLoop] at h
    cases hs : ms.specReplicas with
    | none => rw [hs] at h; cases h
    | some specReplicas =>
      simp only [hs] at h
      by_cases hskip : ms.statusReplicas ≠ 0 ∨ specReplicas ≠ 0 ∨
          ms.generation > ms.observedGeneration ∨ ms.deletionTimestamp ≠ none
      · rw [if_pos hskip] at h
        obtain ⟨hsub, hall⟩ := ih deleted h
        exact ⟨hsub.cons ms, hall⟩
      · rw [if_neg hskip] at h
        cases hrec : cleanupDeploymentLoop rest with
        | error e => rw [hrec] at h; cases h
        | ok deletedRest =>
          rw [hrec] at h
          cases h
          obtain ⟨hsub, hall⟩ := ih deletedRest hrec
          push_neg at hskip
          obtain ⟨hst, hsp, hg, hdt⟩ := hskip
          refine ⟨hsub.cons₂ ms, ?_⟩
          intro x hx
          rcases List.mem_cons.mp hx with hx | hx
          · subst hx
            exact ⟨hdt, hst, by rw [hs, hsp], hg⟩
          · exact hall x hx

/-- C6: `cleanupDeployment` deletes only old machine sets that are not
already deleting, fully scaled down (zero status and spec replicas) and
observed up to their generation; deletions come from the oldest machine
sets by creation timestamp; at most (live old sets − limit) are deleted;
and nothing is deleted when the live count is at most the limit or the
limit is nil. -/
theorem C6_cleanup_deployment (oldMSs : List MachineSet) (deployment : MachineDeployment) :
    (deployment.revisionHistoryLimit = none →
      cleanupDeployment oldMSs deployment = .ok []) ∧
    (∀ limit, deployment.revisionHistoryLimit = some limit →
      (((oldMSs.filter (fun ms => ms.deletionTimestamp = none)).length : Int) ≤ limit →
        cleanupDeployment oldMSs deployment = .ok []) ∧
      (∀ deleted, cleanupDeployment oldMSs deployment = .ok deleted →
        (∀ ms ∈ deleted, ms.deletionTimestamp = none ∧ ms.statusReplicas = 0 ∧
          ms.specReplicas = some 0 ∧ ms.generation ≤ ms.observedGeneration) ∧
        deleted.Sublist
          ((sortByCreationTimestamp (oldMSs.filter (fun ms => ms.deletionTimestamp = none))).take
            (((oldMSs.filter (fun ms => ms.deletionTimestamp = none)).length : Int) -
              limit).toNat) ∧
        (deleted.length : Int) ≤
          max (((oldMSs.filter (fun ms => ms.deletionTimestamp = none)).length : Int) - limit)
            0)) := by
  constructor
  · intro h
    simp only [cleanupDeployment, h]
  · intro limit hlimit
    constructor
    · intro hle
      simp only [cleanupDeployment, hlimit]
      rw [if_pos (by omega)]
    · intro deleted hdel
      simp only [cleanupDeployment, hlimit] at hdel
      by_cases hdiff :
          ((oldMSs.filter (fun ms => ms.deletionTimestamp = none)).length : Int) - limit ≤ 0
      · rw [if_pos hdiff] at hdel
        cases hdel
        refine ⟨by simp, List.nil_sublist _, by simp⟩
      · rw [if_neg hdiff] at hdel
        obtain ⟨hsub, hall⟩ := cleanupDeploymentLoop_spec _ _ hdel
        refine ⟨hall, hsub, ?_⟩
        have h1 : deleted.length ≤
            ((sortByCreationTimestamp
              (oldMSs.filter (fun ms => ms.deletionTimestamp = none))).take
                (((oldMSs.filter (fun ms => ms.deletionTimestamp = none)).length : Int) -
                  limit).toNat).length := hsub.length_le
        have h2 := List.length_take_le
          ((((oldMSs.filter (fun ms => ms.deletionTimestamp = none)).length : Int) -
            limit).toNat)
          (sortByCreationTimestamp (oldMSs.filter (fun ms => ms.deletionTimestamp = none)))
        have h3 : (deleted.length : Int) ≤
            ((((oldMSs.filter (fun ms => ms.deletionTimestamp = none)).length : Int) -
              limit).toNat : Int) := by
          exact_mod_cast le_trans h1 h2
        omega

/-- Invariants of `cleanupPass`: the final total is the initial total
plus everything scaled down, the scale-downs never push the total past
the budget, the touched machine sets form a sublist of the input (zero-
replica and fully-available sets are skipped), and each scale-down is
exactly `min(remaining budget, unhealthy)`. -/
theorem cleanupPass_spec (l : List MachineSet) (maxCleanupCount t : Int)
    (actions : List (MachineSet × Int)) (total : Int)
    (h : cleanupPass l maxCleanupCount t = .ok (actions, total)) :
    total = t + (actions.map Prod.snd).sum ∧
    (t ≤ maxCleanupCount → total ≤ maxCleanupCount) ∧
    (actions.map Prod.fst).Sublist l ∧
    (∀ p ∈ actions, ∃ r, p.1.specReplicas = some r ∧ r ≠ 0 ∧
      r ≠ p.1.statusAvailableReplicas) ∧
    (∀ i (hi : i < actions.length), (actions.get ⟨i, hi⟩).2 =
      min (maxCleanupCount - (t + ((actions.take i).map Prod.snd).sum))
        ((actions.get ⟨i, hi⟩).1.specReplicas.getD 0 -
          (actions.get ⟨i, hi⟩).1.statusAvailableReplicas)) := by
  induction l generalizing t actions total with
  | nil =>
    simp only [cleanupPass] at h
    cases h
    refine ⟨by simp, fun ht => ht, List.nil_sublist _, by simp, ?_⟩
    intro i hi
    simp at hi
  | cons targetMS rest ih =>
    simp only [cleanupPass] at h
    cases hs : targetMS.specReplicas with
    | none => rw [hs] at h; cases h
    | some oldMSReplicas =>
      simp only [hs] at h
      by_cases hbreak : t ≥ maxCleanupCount
      · rw [if_pos hbreak] at h
        cases h
        refine ⟨by simp, fun ht => ht, List.nil_sublist _, by simp, ?_⟩
        intro i hi
        simp at hi
      · rw [if_neg hbreak] at h
        by_cases hz : oldMSReplicas = 0
        · rw [if_pos hz] at h
          obtain ⟨hA, hB, hC, hD, hE⟩ := ih t actions total h
          exact ⟨hA, hB, hC.cons targetMS, hD, hE⟩
        · rw [if_neg hz] at h
          by_cases hhealthy : oldMSReplicas = targetMS.statusAvailableReplicas
          · rw [if_pos hhealthy] at h
            obtain ⟨hA, hB, hC, hD, hE⟩ := ih t actions total h
            exact ⟨hA, hB, hC.cons targetMS, hD, hE⟩
          · rw [if_neg hhealthy] at h
            by_cases herr : oldMSReplicas -
                min (maxCleanupCount - t) (oldMSReplicas - targetMS.statusAvailableReplicas) >
                oldMSReplicas
            · rw [if_pos herr] at h; cases h
            · rw [if_neg herr] at h
              cases hrec : cleanupPass rest maxCleanupCount
                  (t + min (maxCleanupCount - t)
                    (oldMSReplicas - targetMS.statusAvailableReplicas)) with
              | error e => rw [hrec] at h; cases h
              | ok p =>
                obtain ⟨actionsRest, totalRest⟩ := p
                rw [hrec] at h
                injection h with h'
                injection h' with h1 h2
                subst h1
                subst h2
                obtain ⟨hA, hB, hC, hD, hE⟩ := ih _ actionsRest totalRest hrec
                refine ⟨?_, ?_, hC.cons₂ targetMS, ?_, ?_⟩
                · rw [hA]; simp; ring
                · intro ht
                  apply hB
                  have : min (maxCleanupCount - t)
                      (oldMSReplicas - targetMS.statusAvailableReplicas) ≤
                      maxCleanupCount - t := min_le_left _ _
                  omega
                · intro p hp
                  rcases List.mem_cons.mp hp with hp | hp
                  · subst hp
                    exact ⟨oldMSReplicas, hs, hz, hhealthy⟩
                  · exact hD p hp
                · intro i hi
                  cases i with
                  | zero =>
                    simp only [List.get, List.take_zero, List.map_nil, List.sum_nil,
                      add_zero, hs, Option.getD_some]
                  | succ j =>
                    have hj : j < actionsRest.length := by
                      simpa using hi
                    have := hE j hj
                    simp only [List.get, List.take_succ_cons, List.map_cons, List.sum_cons]
                    rw [this]
                    congr 1
                    ring_nf

/-- C1: in `reconcileOldMachineSets`, with
`maxScaledDown = Σ replicas(allMSs) − (D − maxUnavailable) − (newMS.spec − newMS.availableReplicas)`,
no scale-down happens when `maxScaledDown ≤ 0`; otherwise the
unhealthy-cleanup pass walks the old machine sets in ascending creation
order, skips zero-replica and fully-available sets, scales each one down
by exactly `min(unhealthy, remaining budget)`, and the pass total never
exceeds `maxScaledDown`. -/
theorem C1_old_machine_sets_scale_down_budget (allMSs oldMSs : List MachineSet)
    (newMS : MachineSet) (deployment : MachineDeployment)
    (deploymentReplicas newMSReplicas : Int)
    (hd : deployment.replicas = some deploymentReplicas)
    (hn : newMS.specReplicas = some newMSReplicas) :
    (getReplicaCountForMachineSets allMSs - (deploymentReplicas - deployment.maxUnavailable) -
        (newMSReplicas - newMS.statusAvailableReplicas) ≤ 0 →
      reconcileOldMachineSetsFirstPass allMSs oldMSs newMS deployment = .ok ([], 0)) ∧
    (∀ actions total,
      reconcileOldMachineSetsFirstPass allMSs oldMSs newMS deployment = .ok (actions, total) →
      total ≤ max (getReplicaCountForMachineSets allMSs -
          (deploymentReplicas - deployment.maxUnavailable) -
          (newMSReplicas - newMS.statusAvailableReplicas)) 0 ∧
      total = (actions.map Prod.snd).sum ∧
      (actions.map Prod.fst).Sublist (sortByCreationTimestamp oldMSs) ∧
      (∀ p ∈ actions, ∃ r, p.1.specReplicas = some r ∧ r ≠ 0 ∧
        r ≠ p.1.statusAvailableReplicas) ∧
      (∀ i (hi : i < actions.length), (actions.get ⟨i, hi⟩).2 =
        min ((getReplicaCountForMachineSets allMSs -
            (deploymentReplicas - deployment.maxUnavailable) -
            (newMSReplicas - newMS.statusAvailableReplicas)) -
          ((actions.take i).map Prod.snd).sum)
          ((actions.get ⟨i, hi⟩).1.specReplicas.getD 0 -
            (actions.get ⟨i, hi⟩).1.statusAvailableReplicas))) := by
  constructor
  · intro hmsd
    simp only [reconcileOldMachineSetsFirstPass, hd, hn]
    by_cases hold : getReplicaCountForMachineSets oldMSs = 0
    · rw [if_pos hold]
    · rw [if_neg hold, if_pos hmsd]
  · intro actions total h
    simp only [reconcileOldMachineSetsFirstPass, hd, hn] at h
    by_cases hold : getReplicaCountForMachineSets oldMSs = 0
    · rw [if_pos hold] at h
      cases h
      refine ⟨le_max_right _ _, by simp, List.nil_sublist _, by simp, ?_⟩
      intro i hi
      simp at hi
    · rw [if_neg hold] at h
      by_cases hmsd : getReplicaCountForMachineSets allMSs -
          (deploymentReplicas - deployment.maxUnavailable) -
          (newMSReplicas - newMS.statusAvailableReplicas) ≤ 0
      · rw [if_pos hmsd] at h
        cases h
        refine ⟨le_max_right _ _, by simp, List.nil_sublist _, by simp, ?_⟩
        intro i hi
        simp at hi
      · rw [if_neg hmsd] at h
        obtain ⟨hA, hB, hC, hD, hE⟩ := cleanupPass_spec _ _ _ _ _ h
        refine ⟨le_trans (hB (by omega)) (le_max_left _ _), by simpa using hA, hC, hD, ?_⟩
        intro i hi
        have := hE i hi
        simpa using this

/-- An old machine set with 3 spec replicas of which only 1 is available. -/
def exOldUnhealthyMS : MachineSet :=
  { name := "old", specReplicas := some 3, statusReplicas := 3,
    statusAvailableReplicas := 1, creationTimestamp := 1, deletionTimestamp := none,
    generation := 0, observedGeneration := 0, deletePolicy := "" }

/-- A new machine set with 2 available replicas out of 2. -/
def exNewMS : MachineSet :=
  { name := "new", specReplicas := some 2, statusReplicas := 2,
    statusAvailableReplicas := 2, creationTimestamp := 5, deletionTimestamp := none,
    generation := 0, observedGeneration := 0, deletePolicy := "" }

/-- A deployment asking for 4 replicas with `maxUnavailable = 1`. -/
def exDeployment : MachineDeployment :=
  { name := "d", replicas := some 4, maxUnavailable := 1, revisionHistoryLimit := some 1 }

/-- Witness for C1: with budget `maxScaledDown = 5 − 3 − 0 = 2` the pass
scales the unhealthy old set down by exactly 2, within budget. -/
theorem C1_old_machine_sets_scale_down_budget_witness :
    reconcileOldMachineSetsFirstPass [exOldUnhealthyMS, exNewMS] [exOldUnhealthyMS]
        exNewMS exDeployment = .ok ([(exOldUnhealthyMS, 2)], 2) ∧
    (2 : Int) ≤ max (getReplicaCountForMachineSets [exOldUnhealthyMS, exNewMS] -
      ((4 : Int) - exDeployment.maxUnavailable) -
      ((2 : Int) - exNewMS.statusAvailableReplicas)) 0 :=
  have h : reconcileOldMachineSetsFirstPass [exOldUnhealthyMS, exNewMS] [exOldUnhealthyMS]
      exNewMS exDeployment = .ok ([(exOldUnhealthyMS, 2)], 2) := by rfl
  ⟨h, ((C1_old_machine_sets_scale_down_budget [exOldUnhealthyMS, exNewMS] [exOldUnhealthyMS]
    exNewMS exDeployment 4 2 rfl rfl).2 [(exOldUnhealthyMS, 2)] 2 h).1⟩

/-- C2: `getMachinesToDeletePrioritized` returns the whole list when
`diff ≥ length`, the empty list when `diff ≤ 0`, and otherwise exactly
the first `diff` machines of the list sorted descending by priority — in
particular every returned machine's priority is at least that of every
machine not returned, so under each policy machines scoring
`mustDelete (100)` go before `betterDelete (50)` before
`couldDelete (20)` before `mustNotDelete (0)`. -/
theorem C2_prioritized_selection (filteredMachines : List Machine) (diff : Int)
    (f : Machine → deletePriority) :
    (diff ≥ (filteredMachines.length : Int) →
      getMachinesToDeletePrioritized filteredMachines diff f = filteredMachines) ∧
    (diff ≤ 0 → getMachinesToDeletePrioritized filteredMachines diff f = []) ∧
    (0 < diff → diff < (filteredMachines.length : Int) →
      getMachinesToDeletePrioritized filteredMachines diff f =
        (sortMachinesByPriorityDesc f filteredMachines).take diff.toNat ∧
      (getMachinesToDeletePrioritized filteredMachines diff f).length = diff.toNat ∧
      (∀ x ∈ getMachinesToDeletePrioritized filteredMachines diff f,
        ∀ y ∈ filteredMachines,
          y ∉ getMachinesToDeletePrioritized filteredMachines diff f → f y ≤ f x)) := by
  refine ⟨fun h => ?_, fun h => ?_, fun h0 hlen => ?_⟩
  · simp only [getMachinesToDeletePrioritized, ge_iff_le, if_pos h]
  · by_cases h1 : (filteredMachines.length : Int) ≤ diff
    · have hlen0 : filteredMachines.length = 0 := by omega
      simp only [getMachinesToDeletePrioritized, ge_iff_le, if_pos h1]
      exact List.length_eq_zero.mp hlen0
    · simp only [getMachinesToDeletePrioritized, ge_iff_le, if_neg h1, if_pos h]
  · have h1 : ¬ (filteredMachines.length : Int) ≤ diff := by omega
    have h2 : ¬ diff ≤ 0 := by omega
    have hres : getMachinesToDeletePrioritized filteredMachines diff f =
        (sortMachinesByPriorityDesc f filteredMachines).take diff.toNat := by
      simp only [getMachinesToDeletePrioritized, ge_iff_le, if_neg h1, if_neg h2]
    refine ⟨hres, ?_, ?_⟩
    · have hperm : (sortMachinesByPriorityDesc f filteredMachines).Perm filteredMachines :=
        List.perm_insertionSort _ _
      have hlen' : (sortMachinesByPriorityDesc f filteredMachines).length =
          filteredMachines.length := hperm.length_eq
      rw [hres, List.length_take, hlen']
      omega
    · intro x hx y hy hyn
      haveI htot : IsTotal Machine (fun a b => f b ≤ f a) := ⟨fun a b => le_total (f b) (f a)⟩
      haveI htrans : IsTrans Machine (fun a b => f b ≤ f a) :=
        ⟨fun _ _ _ hab hbc => le_trans hbc hab⟩
      have hsorted : List.Sorted (fun a b => f b ≤ f a)
          (sortMachinesByPriorityDesc f filteredMachines) :=
        List.sorted_insertionSort _ _
      have hperm : (sortMachinesByPriorityDesc f filteredMachines).Perm filteredMachines :=
        List.perm_insertionSort _ _
      rw [hres] at hx hyn
      have hy' : y ∈ sortMachinesByPriorityDesc f filteredMachines :=
        hperm.mem_iff.mpr hy
      have hsplit : y ∈ (sortMachinesByPriorityDesc f filteredMachines).take diff.toNat ++
          (sortMachinesByPriorityDesc f filteredMachines).drop diff.toNat := by
        rw [List.take_append_drop]
        exact hy'
      have hydrop : y ∈ (sortMachinesByPriorityDesc f filteredMachines).drop diff.toNat := by
        rcases List.mem_append.mp hsplit with hmem | hmem
        · exact absurd hmem hyn
        · exact hmem
      exact hsorted.rel_of_mem_take_of_mem_drop hx hydrop

/-- Witness for C2: two machines under the random policy (priorities 100
and 20) with `diff = 1`. -/
theorem C2_prioritized_selection_witness :
    getMachinesToDeletePrioritized [exDeletedMachine, exPlainMachine] 1 randomDeletePolicy =
      (sortMachinesByPriorityDesc randomDeletePolicy
        [exDeletedMachine, exPlainMachine]).take (1 : Int).toNat ∧
    (getMachinesToDeletePrioritized [exDeletedMachine, exPlainMachine] 1
      randomDeletePolicy).length = (1 : Int).toNat ∧
    (∀ x ∈ getMachinesToDeletePrioritized [exDeletedMachine, exPlainMachine] 1
        randomDeletePolicy,
      ∀ y ∈ [exDeletedMachine, exPlainMachine],
        y ∉ getMachinesToDeletePrioritized [exDeletedMachine, exPlainMachine] 1
          randomDeletePolicy → randomDeletePolicy y ≤ randomDeletePolicy x) :=
  (C2_prioritized_selection [exDeletedMachine, exPlainMachine] 1 randomDeletePolicy).2.2
    (by decide) (by decide)

/-- A list containing two distinct elements has length at least 2. -/
theorem two_le_length_of_mem_of_mem {α : Type} {a b : α} {l : List α}
    (ha : a ∈ l) (hb : b ∈ l) (hne : a ≠ b) : 2 ≤ l.length := by
  match l with
  | [] => cases ha
  | [x] =>
    simp only [List.mem_singleton] at ha hb
    exact absurd (ha.trans hb.symm) hne
  | x :: y :: t => simp only [List.length]; omega

/-- `isUsageInUsageList` is list membership. -/
theorem isUsageInUsageList_eq_mem (u : String) (l : List String) :
    isUsageInUsageList u l = true ↔ u ∈ l := by
  unfold isUsageInUsageList
  rw [List.any_eq_true]
  constructor
  · rintro ⟨x, hx, hux⟩
    rw [decide_eq_true_eq] at hux
    exact hux ▸ hx
  · intro hu
    exact ⟨u, hu, by simp⟩

/-- `validateCSRObject` succeeds exactly on a well-formed node username
with both required groups present and every usage allowed; the explicit
`≥ 2 groups` check in the code is implied by the two distinct required
groups being present. -/
theorem validateCSRObject_ok_iff (csr : CSR) (nodeName : String) :
    validateCSRObject csr = .ok nodeName ↔
      goStartsWith csr.username nodeUsernameStart = true ∧
      nodeName = stringDropChars csr.username nodeUsernameStart.length ∧
      ¬ (stringDropChars csr.username nodeUsernameStart.length).length = 0 ∧
      nodeGroup ∈ csr.groups ∧ authenticatedGroup ∈ csr.groups ∧
      (∀ u ∈ csr.usages, u ∈ allowedUsages) := by
  unfold validateCSRObject
  constructor
  · intro h
    split_ifs at h with c1 c2 c3 c4 c5
    injection h with h'
    refine ⟨c1, h'.symm, c2, c4.1, c4.2, ?_⟩
    intro u hu
    exact (isUsageInUsageList_eq_mem u allowedUsages).mp
      ((List.all_eq_true.mp c5) u hu)
  · rintro ⟨h1, hname, h2, hg1, hg2, hus⟩
    have hlen : ¬ csr.groups.length < 2 := by
      have := two_le_length_of_mem_of_mem hg1 hg2 (by decide)
      omega
    have hall : csr.usages.all (fun usage => isUsageInUsageList usage allowedUsages) = true :=
      List.all_eq_true.mpr fun u hu =>
        (isUsageInUsageList_eq_mem u allowedUsages).mpr (hus u hu)
    rw [if_neg (not_not_intro h1), if_neg h2, if_neg hlen,
      if_neg (not_not_intro ⟨hg1, hg2⟩), if_neg (not_not_intro hall), hname]

/-- `validateX509CSR` succeeds exactly when the common name matches the
username, the organization is exactly `[system:nodes]`, and every
non-empty DNS/IP SAN is in the machine's address set. -/
theorem validateX509CSR_ok_iff (csr : CSR) (certReq : CertificateRequest)
    (machine : Machine) :
    validateX509CSR csr certReq machine = .ok () ↔
      certReq.commonName = csr.username ∧
      certReq.organization = [nodeGroup] ∧
      (∀ dns ∈ certReq.dnsNames, ¬ dns.length = 0 → dns ∈ machineAddressSet machine) ∧
      (∀ ip ∈ certReq.ipAddresses, ¬ ip.length = 0 → ip ∈ machineAddressSet machine) := by
  unfold validateX509CSR
  constructor
  · intro h
    split_ifs at h with c1 c2 c3 c4 c5
    have horg : certReq.organization = [nodeGroup] := by
      cases ho : certReq.organization with
      | nil => rw [ho] at c2; simp at c2
      | cons x t =>
        cases t with
        | nil =>
          rw [ho] at c3
          simp only [List.headD_cons] at c3
          rw [c3]
        | cons y t2 => rw [ho] at c2; simp at c2
    refine ⟨c1, horg, ?_, ?_⟩
    · intro dns hdns hne
      have hd := List.all_eq_true.mp c4 dns hdns
      simp only [Bool.or_eq_true, decide_eq_true_eq] at hd
      rcases hd with hz | hmem
      · exact absurd hz hne
      · exact hmem
    · intro ip hip hne
      have hi := List.all_eq_true.mp c5 ip hip
      simp only [Bool.or_eq_true, decide_eq_true_eq] at hi
      rcases hi with hz | hmem
      · exact absurd hz hne
      · exact hmem
  · rintro ⟨h1, horg, hdns, hip⟩
    have hlen : certReq.organization.length = 1 := by rw [horg]; rfl
    have hhead : certReq.organization.headD "" = nodeGroup := by rw [horg]; rfl
    have h4 : certReq.dnsNames.all
        (fun dns => decide (dns.length = 0) || decide (dns ∈ machineAddressSet machine)) =
        true := by
      refine List.all_eq_true.mpr fun dns hd => ?_
      simp only [Bool.or_eq_true, decide_eq_true_eq]
      by_cases hz : dns.length = 0
      · exact Or.inl hz
      · exact Or.inr (hdns dns hd hz)
    have h5 : certReq.ipAddresses.all
        (fun ip => decide (ip.length = 0) || decide (ip ∈ machineAddressSet machine)) =
        true := by
      refine List.all_eq_true.mpr fun ip hi => ?_
      simp only [Bool.or_eq_true, decide_eq_true_eq]
      by_cases hz : ip.length = 0
      · exact Or.inl hz
      · exact Or.inr (hip ip hi hz)
    rw [if_neg (not_not_intro h1), if_neg (not_not_intro hlen), if_neg (not_not_intro hhead),
      if_neg (not_not_intro h4), if_neg (not_not_intro h5)]

/-- C3 (amended): the CSR approver approves exactly when the CSR has no
`Approved` condition, the username is `system:node:` plus a non-empty
node name, both required groups are present, every usage is in the
allowed set (a subset check, not exact equality), the PEM request is a
single parseable block, the common name equals the username, the
organization is exactly `[system:nodes]`, a machine is bound to the node
name, and every non-empty DNS/IP SAN is in that machine's address set. -/
theorem C3_csr_approval_characterization (machines : List Machine) (csr : CSR) :
    reconcile machines csr = .approved ↔
      CertificateApproved ∉ csr.conditionTypes ∧
      goStartsWith csr.username nodeUsernameStart = true ∧
      ¬ (stringDropChars csr.username nodeUsernameStart.length).length = 0 ∧
      nodeGroup ∈ csr.groups ∧ authenticatedGroup ∈ csr.groups ∧
      (∀ u ∈ csr.usages, u ∈ allowedUsages) ∧
      (∃ certReq machine,
        decodeCertificateRequest csr.request = .ok certReq ∧
        getMachineForNode machines (stringDropChars csr.username nodeUsernameStart.length) =
          some machine ∧
        certReq.commonName = csr.username ∧
        certReq.organization = [nodeGroup] ∧
        (∀ dns ∈ certReq.dnsNames, ¬ dns.length = 0 → dns ∈ machineAddressSet machine) ∧
        (∀ ip ∈ certReq.ipAddresses, ¬ ip.length = 0 → ip ∈ machineAddressSet machine)) := by
  constructor
  · intro h
    by_cases happroved : CertificateApproved ∈ csr.conditionTypes
    · rw [reconcile, if_pos happroved] at h
      exact ReconcileOutcome.noConfusion h
    · rw [reconcile, if_neg happroved] at h
      cases hv : validateCSRObject csr with
      | error e => simp only [hv] at h; exact ReconcileOutcome.noConfusion h
      | ok nodeName =>
        simp only [hv] at h
        cases hm : getMachineForNode machines nodeName with
        | none => simp only [hm] at h; exact ReconcileOutcome.noConfusion h
        | some machine =>
          simp only [hm] at h
          cases hdec : decodeCertificateRequest csr.request with
          | error e => simp only [hdec] at h; exact ReconcileOutcome.noConfusion h
          | ok certReq =>
            simp only [hdec] at h
            cases hx : validateX509CSR csr certReq machine with
            | error e => simp only [hx] at h; exact ReconcileOutcome.noConfusion h
            | ok u =>
              obtain ⟨hstart, hname, hne, hg1, hg2, hus⟩ :=
                (validateCSRObject_ok_iff csr nodeName).mp hv
              obtain ⟨hcn, horg, hdns, hip⟩ :=
                (validateX509CSR_ok_iff csr certReq machine).mp hx
              subst hname
              exact ⟨happroved, hstart, hne, hg1, hg2, hus, certReq, machine, rfl, hm,
                hcn, horg, hdns, hip⟩
  · rintro ⟨happroved, hstart, hne, hg1, hg2, hus, certReq, machine, hdec, hm,
      hcn, horg, hdns, hip⟩
    have hv : validateCSRObject csr = .ok (stringDropChars csr.username nodeUsernameStart.length) :=
      (validateCSRObject_ok_iff csr _).mpr ⟨hstart, rfl, hne, hg1, hg2, hus⟩
    have hx : validateX509CSR csr certReq machine = .ok () :=
      (validateX509CSR_ok_iff csr certReq machine).mpr ⟨hcn, horg, hdns, hip⟩
    rw [reconcile, if_neg happroved]
    simp only [hv, hm, hdec, hx]

/-- A machine bound to node `node1` with one status address. -/
def exNodeMachine : Machine :=
  { deletionTimestamp := none, annotations := none, creationTimestamp := 1,
    labels := none, errorReason := none, errorMessage := none,
    nodeRefName := some "node1", addresses := ["10.0.0.1"] }

/-- A certificate request for `system:node:node1` with no SANs. -/
def exCertReq : CertificateRequest :=
  { commonName := "system:node:node1", organization := ["system:nodes"],
    dnsNames := [], ipAddresses := [] }

/-- A CSR for `node1` asking only the `digital signature` usage — a
proper subset of the allowed usages. -/
def exSubsetUsagesCSR : CSR :=
  { username := "system:node:node1",
    groups := ["system:nodes", "system:authenticated"],
    usages := ["digital signature"],
    conditionTypes := [],
    request := [some exCertReq] }

/-- C3 (counterexample): a CSR whose usages are a proper subset of
{digital signature, key encipherment, server auth} — not the exact set —
is still approved, refuting the claim's only-if direction. -/
theorem C3_counterexample_subset_usages_approved :
    reconcile [exNodeMachine] exSubsetUsagesCSR = .approved ∧
    ¬ "key encipherment" ∈ exSubsetUsagesCSR.usages := by
  constructor
  · rfl
  · decide

/-- Witness for C3 at the concrete approving CSR. -/
theorem C3_csr_approval_characterization_witness :
    reconcile [exNodeMachine] exSubsetUsagesCSR = .approved :=
  (C3_csr_approval_characterization [exNodeMachine] exSubsetUsagesCSR).mpr
    ⟨by decide, by decide, by decide, by decide, by decide,
     by decide, exCertReq, exNodeMachine, rfl, rfl, rfl, rfl, by decide, by decide⟩

/-- C9 (counterexample): a CSR that passes object validation but has no
matching Machine makes `reconcile` return an error, not the claimed
silent nil skip. -/
theorem C9_counterexample_machine_lookup_error :
    getMachineForNode [] (stringDropChars exSubsetUsagesCSR.username nodeUsernameStart.length) = none ∧
    reconcile [] exSubsetUsagesCSR =
      .failed ("no machine found for given node " ++ "node1") ∧
    ¬ reconcile [] exSubsetUsagesCSR = .skipped := by
  refine ⟨rfl, rfl, ?_⟩
  intro h
  rw [show reconcile [] exSubsetUsagesCSR =
    .failed ("no machine found for given node " ++ "node1") from rfl] at h
  exact ReconcileOutcome.noConfusion h

/-- C9 (amended): for a not-yet-approved CSR, an object-level validation
failure makes `reconcile` skip silently (return nil), while a failure of
the machine lookup, of PEM decoding/parsing, or of the x509 validation
makes it return an error; in no failure case is the CSR approved. -/
theorem C9_validation_failure_outcomes (machines : List Machine) (csr : CSR)
    (happroved : CertificateApproved ∉ csr.conditionTypes) :
    ((∃ e, validateCSRObject csr = .error e) → reconcile machines csr = .skipped) ∧
    (∀ nodeName, validateCSRObject csr = .ok nodeName →
      (getMachineForNode machines nodeName = none →
        ∃ m, reconcile machines csr = .failed m) ∧
      (∀ machine, getMachineForNode machines nodeName = some machine →
        (∃ e, decodeCertificateRequest csr.request = .error e) →
        ∃ m, reconcile machines csr = .failed m) ∧
      (∀ machine certReq, getMachineForNode machines nodeName = some machine →
        decodeCertificateRequest csr.request = .ok certReq →
        (∃ e, validateX509CSR csr certReq machine = .error e) →
        ∃ m, reconcile machines csr = .failed m)) := by
  constructor
  · rintro ⟨e, hv⟩
    rw [reconcile, if_neg happroved]
    simp only [hv]
  · intro nodeName hv
    refine ⟨fun hm => ?_, fun machine hm ⟨e, hdec⟩ => ?_, fun machine certReq hm hdec ⟨e, hx⟩ => ?_⟩
    · refine ⟨"no machine found for given node " ++ nodeName, ?_⟩
      rw [reconcile, if_neg happroved]
      simp only [hv, hm]
    · refine ⟨e, ?_⟩
      rw [reconcile, if_neg happroved]
      simp only [hv, hm, hdec]
    · refine ⟨"error validating the x509 certificate request: " ++ e, ?_⟩
      rw [reconcile, if_neg happroved]
      simp only [hv, hm, hdec, hx]

/-- Witness for C9: with no machines, the machine lookup for the valid
CSR fails and `reconcile` returns an error. -/
theorem C9_validation_failure_outcomes_witness :
    ∃ m, reconcile [] exSubsetUsagesCSR = .failed m :=
  ((C9_validation_failure_outcomes [] exSubsetUsagesCSR (by decide)).2
    "node1" (by rfl)).1 (by rfl)

end MachineController
